import Mathlib

/-!
Verification of the sshx client library.

A shallow embedding, in Lean 4, of the observable behaviour of the `sshx`
Go package (and its historical sibling package `ssh`): address parsing,
host-key trust policy, credential selection, command running and the
interactive shell.  Ambient effects of the Go code (current-user lookup,
filesystem reads, network dialing, terminal control) are passed in as
explicit parameters; the pure control flow of each Go function is
translated statement by statement.

Go strings are byte strings; every separator the code splits on
(`'@'`, `':'`, `'/'`) is ASCII, so byte-level operations coincide with
character-level ones and we model Go strings as Lean `String`
(whose logical model is `List Char`).
-/

namespace Sshx

/-- Go `strings.Split(s, sep)` for a single-character separator:
splits around each occurrence of `sep`, keeping empty fields; on the
empty string it returns `[[]]`, exactly as Go does. -/
def goSplitChars (sep : Char) : List Char → List (List Char)
  | [] => [[]]
  | c :: rest =>
    if c == sep then [] :: goSplitChars sep rest
    else
      match goSplitChars sep rest with
      | [] => [[c]]
      | g :: gs => (c :: g) :: gs

/-- String wrapper for `goSplitChars`. -/
def goSplit (sep : Char) (s : String) : List String :=
  (goSplitChars sep s.data).map String.mk

/-- Go `strings.LastIndexByte(s, b) >= 0`, i.e. whether the (ASCII) byte
occurs in the string. -/
def goContainsChar (c : Char) (s : String) : Bool :=
  s.data.any (· == c)

/-- Go `net.JoinHostPort(host, port)`: a host containing a colon is
assumed to be an IPv6 literal and is bracketed. -/
def joinHostPort (host port : String) : String :=
  if goContainsChar ':' host then "[" ++ host ++ "]:" ++ port
  else host ++ ":" ++ port

/-- Function `formatHost` from `sshx.go`: append the default port 22 when the
address has no colon at all. -/
def formatHost (addr : String) : String :=
  if ¬ goContainsChar ':' addr then joinHostPort addr "22"
  else addr

/-- Result of Go `osuser.Current()`: `some username`, or `none` when the
ambient process identity cannot be resolved. -/
abbrev CurrentUser := Option String

/-- Function `Split` from `sshx.go` (package `sshx`): split `user@host[:port]`
into user and host.  When the input does not split into exactly two
parts around `'@'`, the whole input is treated as the host and the
ambient user is used; only a failed ambient-identity lookup is an
error. -/
def Split (current : CurrentUser) (userHost : String) :
    Except String (String × String) :=
  let parts := goSplit '@' userHost
  if parts.length ≠ 2 then
    match current with
    | none => .error ("ssh: invalid user@host[:port] " ++ userHost)
    | some username => .ok (username, userHost)
  else
    let user := parts.getD 0 ""
    let host := parts.getD 1 ""
    .ok (user, formatHost host)

/-- One line of the `~/.ssh/known_hosts` store: a hostname and the
fingerprint of its public key.  Key material is abstracted to the data
the trust decision depends on. -/
structure TrustRecord where
  hostname : String
  fingerprint : String
deriving DecidableEq, Repr

/-- Errors surfaced by the `skeema/knownhosts` callback that
`loadKnownHosts` wraps. -/
inductive HkError where
  /-- A `knownhosts.KeyError` with no matching `Want` entry: the hostname
  has no record (`IsHostUnknown` is true for it). -/
  | hostUnknown
  /-- A `knownhosts.KeyError` with `Want` entries: a record exists for the
  hostname but its key differs. -/
  | mismatch
deriving DecidableEq, Repr

/-- Modelled collaborator: the `skeema/knownhosts` database callback
(`knownHostsDb.HostKeyCallback()`), per its documented semantics — `nil`
when a record for the hostname carries the presented key, a
host-unknown `KeyError` when no record exists for the hostname, and a
mismatch `KeyError` when records exist but none carries the key. -/
def innerCallback (db : List TrustRecord) (hostname key : String) :
    Option HkError :=
  match db.find? (fun r => r.hostname == hostname) with
  | none => some .hostUnknown
  | some r => if r.fingerprint == key then none else some .mismatch

/-- Predicate `knownhosts.IsHostUnknown` on the modelled errors. -/
def IsHostUnknown : HkError → Bool
  | .hostUnknown => true
  | .mismatch => false

/-- The custom host-key callback built by `loadKnownHosts` in `sshx.go`.
`canAppend` is whether `os.OpenFile(knownHostsPath, O_APPEND|O_WRONLY)`
succeeds; `remote` is the remote address, threaded to the inner callback
and `WriteKnownHost` but not part of the modelled trust decision, which
is keyed on the hostname.  Returns the verification result handed to the
transport and the list of records appended to the persisted store by
this call. -/
def hostKeyCallback (db : List TrustRecord) (canAppend : Bool)
    (hostname : String) (_remote : String) (key : String) :
    Option HkError × List TrustRecord :=
  match innerCallback db hostname key with
  | some e =>
    if ¬ IsHostUnknown e then (some e, [])
    else
      -- best-effort WriteKnownHost; an unopenable file never fails the call
      if canAppend then (none, [⟨hostname, key⟩]) else (none, [])
  | none => (none, [])

/-- The host-key verifier installed into a `ClientConfig`: either the
trust-on-first-use callback over a loaded `known_hosts` database, or
`ssh.InsecureIgnoreHostKey()`. -/
inductive Verifier where
  | knownHostsCB (db : List TrustRecord) (canAppend : Bool)
  /-- The plain `knownhosts.New` callback used by `ssh.go`: no
  trust-on-first-use wrapper, no writes. -/
  | strictKnownHosts (db : List TrustRecord)
  | insecureIgnoreHostKey
deriving DecidableEq, Repr

/-- Run a verifier on a hostname and key: result and appended records.
`ssh.InsecureIgnoreHostKey()` accepts everything and never writes. -/
def Verifier.verify :
    Verifier → String → String → String → Option HkError × List TrustRecord
  | .insecureIgnoreHostKey, _, _, _ => (none, [])
  | .strictKnownHosts db, hostname, _, key => (innerCallback db hostname key, [])
  | .knownHostsCB db canAppend, hostname, remote, key =>
    hostKeyCallback db canAppend hostname remote key

/-- A signing credential (`ssh.Signer`), abstracted to an identity. -/
abbrev Signer := String

/-- One `ssh.AuthMethod` entry of a `ClientConfig`. -/
inductive AuthMethod where
  /-- Method `ssh.PublicKeys(signer)` for an explicit signer. -/
  | publicKeys (s : Signer)
  /-- Method `ssh.PublicKeysCallback(agent.Signers)`. -/
  | agentCallback
deriving DecidableEq, Repr

/-- The fields of `ssh.ClientConfig` this layer sets. -/
structure ClientConfig where
  user : String
  hostKeyCallback : Verifier
  auth : List AuthMethod
deriving DecidableEq, Repr

/-- Result of `loadKnownHosts()`: `some` a database (with the
append-openability of its file), or `none` when the home directory or
the `known_hosts` db cannot be loaded. -/
abbrev KnownHostsLoad := Option (List TrustRecord × Bool)

/-- Function `configure` from `sshx.go`: build a `ClientConfig`, falling back to
`ssh.InsecureIgnoreHostKey()` when `loadKnownHosts` fails, then append
one `ssh.PublicKeys` auth method per supplied signer. -/
def configure (kh : KnownHostsLoad) (user : String) (_host : String)
    (signers : List Signer) : ClientConfig :=
  { user := user
    hostKeyCallback :=
      match kh with
      | some (db, canAppend) => .knownHostsCB db canAppend
      | none => .insecureIgnoreHostKey
    auth := signers.map .publicKeys }

/-- Result of `loadAgent()` composed with `agent.Signers()`: `none` when
no agent is reachable (e.g. `SSH_AUTH_SOCK` unset), `some (.error e)`
when the agent is reachable but listing signers fails, and
`some (.ok signers)` otherwise. -/
abbrev AgentLoad := Option (Except String (List Signer))

/-- Function `Configure` from `sshx.go`: `configure`, plus the agent
`ssh.PublicKeysCallback` auth method when an agent is reachable. -/
def Configure (kh : KnownHostsLoad) (agent : AgentLoad) (user : String)
    (host : String) (signers : List Signer) : ClientConfig :=
  let config := configure kh user (formatHost host) signers
  match agent with
  | some _ => { config with auth := config.auth ++ [.agentCallback] }
  | none => config

/-- Whether `ssh.Dial("tcp", host, configure(user, host, signer))`
succeeds for one isolated signer — the network and the remote
authentication policy, abstracted as a predicate on the signer. -/
abbrev DialOk := Signer → Bool

/-- The per-signer trial loop shared by `DialEach` and `Test` in
`sshx.go`: dial with each signer in order, returning the first one that
connects. -/
def dialLoop (dialOk : DialOk) : List Signer → Option Signer
  | [] => none
  | s :: rest => if dialOk s then some s else dialLoop dialOk rest

/-- The agent-expansion prefix of `DialEach`/`Test`: when an agent is
reachable, append its signers after the caller-supplied ones; a failure
listing agent signers aborts; an unreachable agent contributes
nothing. -/
def expandSigners (agent : AgentLoad) (signers : List Signer) :
    Except String (List Signer) :=
  match agent with
  | none => .ok signers
  | some (.error e) => .error e
  | some (.ok agentSigners) => .ok (signers ++ agentSigners)

/-- Function `DialEach` from `sshx.go`: dial each candidate signer (caller-supplied
then agent-discovered) until one connects, returning it; the returned
client is elided since it is determined by the successful dial. -/
def DialEach (dialOk : DialOk) (agent : AgentLoad) (user host : String)
    (signers : List Signer) : Except String Signer :=
  match expandSigners agent signers with
  | .error e => .error e
  | .ok candidates =>
    match dialLoop dialOk candidates with
    | some s => .ok s
    | none => .error ("ssh: unable to connect to " ++ user ++ "@" ++ formatHost host)

/-- Function `Test` from `sshx.go`: identical trial loop to `DialEach`, but the
successful connection is closed at once and only the signer returned. -/
def Test (dialOk : DialOk) (agent : AgentLoad) (user host : String)
    (signers : List Signer) : Except String Signer :=
  match expandSigners agent signers with
  | .error e => .error e
  | .ok candidates =>
    match dialLoop dialOk candidates with
    | some s => .ok s
    | none => .error ("ssh: unable to connect to " ++ user ++ "@" ++ formatHost host)

/-- The connection attempts the trial loop performs, in order: every
failing candidate before the first success, then the success itself (or
every candidate when none succeeds). -/
def attemptTrace (dialOk : DialOk) : List Signer → List Signer
  | [] => []
  | s :: rest => if dialOk s then [s] else s :: attemptTrace dialOk rest

/-- Outcome of `session.Run(cmd)` on the remote side. -/
inductive SessionRunResult where
  /-- The remote command exited with status 0. -/
  | success
  /-- An `*ssh.ExitError` carrying a non-zero remote exit status. -/
  | exitError (status : Nat)
  /-- Any other failure (connection drop, missing status, ...). -/
  | otherError (msg : String)
deriving DecidableEq, Repr

/-- What a freshly opened session does: contents written to the stdout
buffer, and the result of `session.Run`. -/
structure SessionBehavior where
  stdout : String
  runResult : SessionRunResult
deriving DecidableEq, Repr

/-- Result of `ssh.NewSession()`: the session's behaviour, or a creation
error. -/
abbrev NewSession := Except String SessionBehavior

/-- Go `strings.TrimRight(s, cutset)` over chars: drop trailing
characters belonging to the cutset. -/
def goTrimRight (cut : Char → Bool) (s : String) : String :=
  String.mk ((s.data.reverse.dropWhile cut).reverse)

/-- Go `unicode.IsSpace` restricted to Latin-1, as `strings.TrimSpace`
uses it: space, tab, newline, vertical tab, form feed, carriage return,
NEL and NBSP. -/
def goIsSpace (c : Char) : Bool :=
  c == ' ' || c == '\t' || c == '\n' || c == (Char.ofNat 11) ||
  c == (Char.ofNat 12) || c == '\r' || c == (Char.ofNat 0x85) ||
  c == (Char.ofNat 0xA0)

/-- Go `strings.TrimSpace(s)`: drop leading and trailing whitespace. -/
def goTrimSpace (s : String) : String :=
  String.mk ((s.data.dropWhile goIsSpace).reverse.dropWhile goIsSpace |>.reverse)

/-- Function `Run` from `sshx.go`: open a session, run the command capturing
stdout, and return stdout with trailing newlines stripped.  Mirrors the
Go `(string, error)` pair: the error is the second component. -/
def Run (newSession : NewSession) : String × Option String :=
  match newSession with
  | .error e => ("", some ("ssh: could not create session: " ++ e))
  | .ok session =>
    match session.runResult with
    | .success => (goTrimRight (· == '\n') session.stdout, none)
    | .exitError n => ("", some ("exit status " ++ toString n))
    | .otherError e => ("", some e)

/-- Go `io/fs.ValidPath(name)`: `"."`, or slash-separated path elements
none of which is empty, `"."` or `".."`.  (Go also requires valid UTF-8,
which every Lean `String` satisfies by construction; rooted paths such
as `"/tmp"` fail the first-element-empty check.) -/
def validPath (name : String) : Bool :=
  if name == "." then true
  else (goSplit '/' name).all (fun elem => ¬ (elem == "" || elem == "." || elem == ".."))

/-- One character of Go `fmt %q` (`strconv.Quote`) output.  Backslash,
double quote and the common control characters get their Go escapes;
other control bytes get `\xHH`.  (Go additionally escapes non-printable
code points above 0x7f, which this model keeps verbatim — no claim
depends on them.) -/
def goQuoteChar (c : Char) : String :=
  if c == '"' then "\\\""
  else if c == '\\' then "\\\\"
  else if c == (Char.ofNat 7) then "\\a"
  else if c == (Char.ofNat 8) then "\\b"
  else if c == (Char.ofNat 12) then "\\f"
  else if c == '\n' then "\\n"
  else if c == '\r' then "\\r"
  else if c == '\t' then "\\t"
  else if c == (Char.ofNat 11) then "\\v"
  else if c.toNat < 32 ∨ c.toNat == 127 then
    "\\x" ++ String.mk [(Nat.digitChar (c.toNat / 16)), (Nat.digitChar (c.toNat % 16))]
  else String.mk [c]

/-- Go `fmt.Sprintf("%q", s)`. -/
def goQuote (s : String) : String :=
  "\"" ++ String.join (s.data.map goQuoteChar) ++ "\""

/-- Function `formatCommand` from `sshx.go`. -/
def formatCommand (dir : String) (args : List String) : String :=
  if args.length == 0 then "cd " ++ dir ++ " && exec $SHELL"
  else "cd " ++ dir ++ " && exec $SHELL -c " ++ goQuote (String.intercalate " " args)

/-- Observable actions `Shell` performs against the session and the
local terminal, in order. -/
inductive ShellEvent where
  /-- Call `sshc.NewSession()` succeeded. -/
  | sessionOpened
  /-- Call `term.MakeRaw` put the local terminal into raw mode. -/
  | madeRaw
  /-- Call `session.RequestPty(termType, height, width, ...)`. -/
  | ptyRequested (termType : String) (height width : Nat)
  /-- Call `session.Run(cmd)`. -/
  | ran (cmd : String)
  /-- The deferred `term.Restore` ran. -/
  | restoredRaw
deriving DecidableEq, Repr

/-- The errors `Shell` can return. -/
inductive ShellError where
  /-- Error `ssh: invalid directory %q`. -/
  | invalidDirectory (dir : String)
  /-- Error `ssh: could not create session: %w`. -/
  | sessionCreation (e : String)
  /-- One-shot branch: the `session.Run` error returned untranslated. -/
  | runError (r : SessionRunResult)
  /-- Error `ssh: could not make terminal raw: %w`. -/
  | makeRawFailed (e : String)
  /-- Error `ssh: could not get terminal size: %w`. -/
  | getSizeFailed (e : String)
  /-- Error `ssh: could not request pty: %w`. -/
  | ptyFailed (e : String)
  /-- Error `ssh: exit status %d`. -/
  | exitStatus (n : Nat)
  /-- Error `ssh: session ended unexpectedly: %w`. -/
  | sessionEndedUnexpectedly (e : String)
deriving DecidableEq, Repr

/-- The ambient collaborators of `Shell`: session creation, the remote
result of `session.Run` per command, terminal control outcomes, and the
`TERM` environment variable (`""` when unset). -/
structure ShellEnv where
  newSession : Except String Unit
  run : String → SessionRunResult
  makeRaw : Except String Unit
  getSize : Except String (Nat × Nat)
  termEnv : String
  requestPty : String → Nat → Nat → Except String Unit

/-- One-shot branch of `Shell`: `return session.Run(...)` — the error,
when any, is passed through untranslated. -/
def rawRunError : SessionRunResult → Option ShellError
  | .success => none
  | .exitError n => some (.runError (.exitError n))
  | .otherError e => some (.runError (.otherError e))

/-- Interactive branch of `Shell`: exit status 130 (interrupt) is a
normal return; other exit statuses become `ssh: exit status %d`; any
other failure becomes `ssh: session ended unexpectedly`. -/
def interactiveRunError : SessionRunResult → Option ShellError
  | .success => none
  | .exitError n => if n == 130 then none else some (.exitStatus n)
  | .otherError e => some (.sessionEndedUnexpectedly e)

/-- Function `Shell` from `sshx.go`: validate the directory, open a session, then
either run the one-shot command without any terminal handling (when
`args` is non-empty) or go raw, size the terminal, request a pty and run
the login shell, translating its exit.  Returns the events performed and
the error result.  `term.GetSize` yields `(width, height)`; the Go code
passes them to `RequestPty` as `(height, width)`. -/
def Shell (env : ShellEnv) (dir : String) (args : List String) :
    List ShellEvent × Option ShellError :=
  if ¬ validPath dir then ([], some (.invalidDirectory dir))
  else
    match env.newSession with
    | .error e => ([], some (.sessionCreation e))
    | .ok _ =>
      if args.length > 0 then
        let cmd := formatCommand dir args
        ([.sessionOpened, .ran cmd], rawRunError (env.run cmd))
      else
        match env.makeRaw with
        | .error e => ([.sessionOpened], some (.makeRawFailed e))
        | .ok _ =>
          match env.getSize with
          | .error e => ([.sessionOpened, .madeRaw, .restoredRaw], some (.getSizeFailed e))
          | .ok (termWidth, termHeight) =>
            let termType := if env.termEnv == "" then "xterm-256color" else env.termEnv
            match env.requestPty termType termHeight termWidth with
            | .error e => ([.sessionOpened, .madeRaw, .restoredRaw], some (.ptyFailed e))
            | .ok _ =>
              let cmd := formatCommand dir []
              ([.sessionOpened, .madeRaw, .ptyRequested termType termHeight termWidth,
                 .ran cmd, .restoredRaw],
               interactiveRunError (env.run cmd))

/-- A `ShellEnv` whose collaborators all succeed (terminal 80×24, `TERM`
unset) and whose remote runs all yield the fixed result `r` — used to
evaluate `Shell` at concrete inputs. -/
def constEnv (r : SessionRunResult) : ShellEnv :=
  { newSession := .ok ()
    run := fun _ => r
    makeRaw := .ok ()
    getSize := .ok (80, 24)
    termEnv := ""
    requestPty := fun _ _ _ => .ok () }

end Sshx

namespace SshPkg

/-- Function `Split` from `ssh.go` (package `ssh`): like `Sshx.Split`, but the
default port is appended by splitting the host on `':'` and checking for
a single part, instead of `formatHost`. -/
def Split (current : Sshx.CurrentUser) (userHost : String) :
    Except String (String × String) :=
  let parts := Sshx.goSplit '@' userHost
  if parts.length ≠ 2 then
    match current with
    | none => .error ("ssh: invalid user@host[:port] " ++ userHost)
    | some username => .ok (username, userHost)
  else
    let user := parts.getD 0 ""
    let host := parts.getD 1 ""
    let hostParts := Sshx.goSplit ':' host
    if hostParts.length == 1 then .ok (user, host ++ ":22")
    else .ok (user, host)

/-- Function `Configure` from `ssh.go`: install the plain `knownhosts.New`
callback when the store loads, otherwise `ssh.InsecureIgnoreHostKey()`;
the auth list is the agent callback when an agent is reachable, else
empty.  The Go function's error result is always `nil`. -/
def Configure (kh : Sshx.KnownHostsLoad) (agent : Sshx.AgentLoad)
    (user : String) (_host : String) : Sshx.ClientConfig :=
  { user := user
    hostKeyCallback :=
      match kh with
      | some (db, _) => .strictKnownHosts db
      | none => .insecureIgnoreHostKey
    auth :=
      match agent with
      | some _ => [.agentCallback]
      | none => [] }

/-- Function `Run` from `ssh.go`: like `Sshx.Run`, but the captured stdout is
passed through `strings.TrimSpace`, stripping leading and trailing
whitespace. -/
def Run (newSession : Sshx.NewSession) : String × Option String :=
  match newSession with
  | .error e => ("", some ("ssh: could not create session: " ++ e))
  | .ok session =>
    match session.runResult with
    | .success => (Sshx.goTrimSpace session.stdout, none)
    | .exitError n => ("", some ("exit status " ++ toString n))
    | .otherError e => ("", some e)

end SshPkg

/-! ## Helper lemmas -/

namespace Sshx

/-- Lemma: `goSplitChars` yields one part more than the number of separator
occurrences. -/
theorem goSplitChars_length (sep : Char) (l : List Char) :
    (goSplitChars sep l).length = l.countP (· == sep) + 1 := by
  induction l with
  | nil => simp [goSplitChars]
  | cons c rest ih =>
    by_cases h : c == sep
    · simp [goSplitChars, h, List.countP_cons, ih]
    · have hne : (goSplitChars sep rest) ≠ [] := by
        cases hr : goSplitChars sep rest with
        | nil => rw [hr] at ih; simp at ih
        | cons _ _ => simp
      cases hr : goSplitChars sep rest with
      | nil => exact absurd hr hne
      | cons g gs =>
        rw [hr] at ih
        simp [goSplitChars, h, hr, List.countP_cons, ← ih]

/-- A split never produces the empty list of parts. -/
theorem goSplitChars_ne_nil (sep : Char) (l : List Char) :
    goSplitChars sep l ≠ [] := by
  intro h
  have := goSplitChars_length sep l
  rw [h] at this
  simp at this

/-- The head of a `dropWhile` result falsifies the predicate. -/
theorem dropWhile_head_false {α : Type} (p : α → Bool) :
    ∀ (l : List α) (a : α), (l.dropWhile p).head? = some a → p a = false := by
  intro l
  induction l with
  | nil => intro a h; simp [List.dropWhile] at h
  | cons c rest ih =>
    intro a h
    by_cases hc : p c
    · rw [List.dropWhile_cons_of_pos hc] at h
      exact ih a h
    · rw [List.dropWhile_cons_of_neg hc] at h
      simp at h
      rw [← h]
      exact Bool.eq_false_iff.mpr hc

/-- A list whose elements all `==`-match `a` is a replicate of `a`. -/
theorem takeWhile_beq_replicate (a : Char) (l : List Char) :
    l.takeWhile (· == a) = List.replicate (l.takeWhile (· == a)).length a := by
  apply List.eq_replicate_of_mem
  intro b hb
  have := List.mem_takeWhile_imp hb
  simpa using this

/-- The characterisation of the shared trial loop of `DialEach`/`Test`:
a successful result is the first candidate that dials, every earlier
candidate fails, and the attempts performed are exactly the failing
prefix followed by the success. -/
theorem dialLoop_spec (dialOk : DialOk) :
    ∀ (l : List Signer) (s : Signer), dialLoop dialOk l = some s →
      ∃ pre post, l = pre ++ s :: post ∧ (∀ x ∈ pre, dialOk x = false) ∧
        dialOk s = true ∧ attemptTrace dialOk l = pre ++ [s] := by
  intro l
  induction l with
  | nil => intro s h; simp [dialLoop] at h
  | cons c rest ih =>
    intro s h
    by_cases hc : dialOk c
    · have hcs : c = s := by simpa [dialLoop, hc] using h
      subst hcs
      exact ⟨[], rest, by simp, by simp, hc, by simp [attemptTrace, hc]⟩
    · simp only [dialLoop, if_neg hc] at h
      obtain ⟨pre, post, hl, hpre, hs, htr⟩ := ih s h
      refine ⟨c :: pre, post, by simp [hl], ?_, hs, ?_⟩
      · intro x hx
        rcases List.mem_cons.mp hx with rfl | hx
        · exact Bool.eq_false_iff.mpr hc
        · exact hpre x hx
      · simp [attemptTrace, hc, htr]

/-- When the trial loop fails, every candidate was attempted and
failed. -/
theorem dialLoop_none (dialOk : DialOk) :
    ∀ l : List Signer, dialLoop dialOk l = none →
      (∀ x ∈ l, dialOk x = false) ∧ attemptTrace dialOk l = l := by
  intro l
  induction l with
  | nil => intro _; exact ⟨by simp, rfl⟩
  | cons c rest ih =>
    intro h
    by_cases hc : dialOk c
    · simp [dialLoop, hc] at h
    · simp only [dialLoop, if_neg hc] at h
      obtain ⟨hall, htr⟩ := ih h
      refine ⟨?_, by simp [attemptTrace, hc, htr]⟩
      intro x hx
      rcases List.mem_cons.mp hx with rfl | hx
      · exact Bool.eq_false_iff.mpr hc
      · exact hall x hx

/-- The trial loop fails when every candidate fails. -/
theorem dialLoop_eq_none (dialOk : DialOk) :
    ∀ l : List Signer, (∀ x ∈ l, dialOk x = false) → dialLoop dialOk l = none := by
  intro l
  induction l with
  | nil => intro _; rfl
  | cons c rest ih =>
    intro h
    have hc : dialOk c = false := h c (by simp)
    simp only [dialLoop, hc]
    exact ih fun x hx => h x (List.mem_cons_of_mem c hx)

end Sshx

/-- A split has a single part exactly when the separator does not occur. -/
theorem goSplit_single_iff (sep : Char) (s : String) :
    (Sshx.goSplit sep s).length = 1 ↔ Sshx.goContainsChar sep s = false := by
  rw [Sshx.goSplit, List.length_map, Sshx.goSplitChars_length, Sshx.goContainsChar,
    List.any_eq_false]
  constructor
  · intro h x hx
    have hz : s.data.countP (· == sep) = 0 := by omega
    exact (List.countP_eq_zero.mp hz) x hx
  · intro h
    have hz : s.data.countP (· == sep) = 0 := List.countP_eq_zero.mpr h
    omega

/-- Shared fallback behaviour of both `Split`s when the input does not
split into exactly two parts at `'@'`: the whole input becomes the host
and the ambient user is used; only ambient-identity failure errors. -/
theorem split_fallback_branch (current : Sshx.CurrentUser) (s : String)
    (hlen : (Sshx.goSplit '@' s).length ≠ 2) :
    Sshx.Split current s =
      (match current with
        | some u => .ok (u, s)
        | none => .error ("ssh: invalid user@host[:port] " ++ s)) ∧
    SshPkg.Split current s =
      (match current with
        | some u => .ok (u, s)
        | none => .error ("ssh: invalid user@host[:port] " ++ s)) := by
  constructor
  · simp only [Sshx.Split]
    rw [if_pos hlen]
    cases current <;> rfl
  · simp only [SshPkg.Split]
    rw [if_pos hlen]
    cases current <;> rfl

/-! ## Claim theorems -/

/-- C1: The host-key callback built by `loadKnownHosts` implements
trust-on-first-use with three cases: no record for the hostname — accept
(the result is `none` whether or not the append can be performed) and
append a record exactly when the store is openable; a record with a
matching fingerprint — accept with no mutation; a record with a
differing fingerprint — return the hard mismatch failure (never `none`)
with no mutation. -/
theorem tofu_callback_cases (db : List Sshx.TrustRecord) (canAppend : Bool)
    (hostname remote key : String) :
    (db.find? (fun r => r.hostname == hostname) = none →
      (Sshx.hostKeyCallback db canAppend hostname remote key).1 = none ∧
      (Sshx.hostKeyCallback db true hostname remote key).2 = [⟨hostname, key⟩] ∧
      (Sshx.hostKeyCallback db false hostname remote key).2 = []) ∧
    (∀ r, db.find? (fun r => r.hostname == hostname) = some r →
      r.fingerprint = key →
      Sshx.hostKeyCallback db canAppend hostname remote key = (none, [])) ∧
    (∀ r, db.find? (fun r => r.hostname == hostname) = some r →
      r.fingerprint ≠ key →
      Sshx.hostKeyCallback db canAppend hostname remote key =
        (some .mismatch, [])) := by
  refine ⟨?_, ?_, ?_⟩
  · intro hfind
    refine ⟨?_, ?_, ?_⟩ <;>
      cases canAppend <;>
        simp [Sshx.hostKeyCallback, Sshx.innerCallback, Sshx.IsHostUnknown, hfind]
  · intro r hfind hkey
    simp [Sshx.hostKeyCallback, Sshx.innerCallback, Sshx.IsHostUnknown, hfind, hkey]
  · intro r hfind hkey
    simp [Sshx.hostKeyCallback, Sshx.innerCallback, Sshx.IsHostUnknown, hfind, hkey]

/-- Witness for C1 at concrete inputs: empty store (unknown host, with
and without an openable file), matching record, and mismatching
record. -/
theorem tofu_callback_cases_witness :
    (Sshx.hostKeyCallback [] true "h" "addr" "k").1 = none ∧
    (Sshx.hostKeyCallback [] true "h" "addr" "k").2 = [⟨"h", "k"⟩] ∧
    (Sshx.hostKeyCallback [] false "h" "addr" "k").2 = [] ∧
    Sshx.hostKeyCallback [⟨"h", "k"⟩] true "h" "addr" "k" = (none, []) ∧
    Sshx.hostKeyCallback [⟨"h", "k"⟩] true "h" "addr" "k2" =
      (some .mismatch, []) := by
  have t := tofu_callback_cases [] true "h" "addr" "k"
  have tmatch := tofu_callback_cases [⟨"h", "k"⟩] true "h" "addr" "k"
  have tdiff := tofu_callback_cases [⟨"h", "k"⟩] true "h" "addr" "k2"
  exact ⟨(t.1 rfl).1, (t.1 rfl).2.1, (t.1 rfl).2.2,
    tmatch.2.1 ⟨"h", "k"⟩ rfl rfl, tdiff.2.2 ⟨"h", "k"⟩ rfl (by decide)⟩

/-- C2: Whenever `loadKnownHosts` fails, every configuration built —
by `configure` and `Configure` in `sshx.go` and `Configure` in `ssh.go`
— installs `ssh.InsecureIgnoreHostKey()`, which accepts every hostname,
remote address and key without writing anything. -/
theorem insecure_fallback_on_store_load_failure (user host hostname remote key : String)
    (signers : List Sshx.Signer) (agent : Sshx.AgentLoad) :
    (Sshx.configure none user host signers).hostKeyCallback =
      .insecureIgnoreHostKey ∧
    (Sshx.Configure none agent user host signers).hostKeyCallback =
      .insecureIgnoreHostKey ∧
    (SshPkg.Configure none agent user host).hostKeyCallback =
      .insecureIgnoreHostKey ∧
    (Sshx.configure none user host signers).hostKeyCallback.verify
      hostname remote key = (none, []) ∧
    (Sshx.Configure none agent user host signers).hostKeyCallback.verify
      hostname remote key = (none, []) ∧
    (SshPkg.Configure none agent user host).hostKeyCallback.verify
      hostname remote key = (none, []) := by
  cases agent <;>
    simp [Sshx.configure, Sshx.Configure, SshPkg.Configure, Sshx.Verifier.verify]

/-- C4 counterexample: An input with two `'@'`s is *not* rejected:
both parsers accept it, treating the whole input as the host. -/
theorem multi_at_not_rejected :
    Sshx.Split (some "u") "a@b@c" = .ok ("u", "a@b@c") ∧
    SshPkg.Split (some "u") "a@b@c" = .ok ("u", "a@b@c") ∧
    1 < ("a@b@c" : String).data.countP (· == '@') :=
  ⟨rfl, rfl, by decide⟩

/-- C4 amended: An input containing more than one `'@'` falls into
the no-user branch of both parsers: the ambient user is returned with
the whole input as the host, and the parse fails (with the
invalid-address message) only when the ambient identity cannot be
resolved. -/
theorem multi_at_treated_as_bare_host (current : Sshx.CurrentUser) (s : String)
    (h : 1 < s.data.countP (· == '@')) :
    Sshx.Split current s =
      (match current with
        | some u => .ok (u, s)
        | none => .error ("ssh: invalid user@host[:port] " ++ s)) ∧
    SshPkg.Split current s =
      (match current with
        | some u => .ok (u, s)
        | none => .error ("ssh: invalid user@host[:port] " ++ s)) := by
  apply split_fallback_branch
  simp only [Sshx.goSplit, List.length_map, Sshx.goSplitChars_length]
  omega

/-- Witness for C4 at a concrete three-`@` input. -/
theorem multi_at_treated_as_bare_host_witness :
    Sshx.Split (some "u2") "x@y@z@w" = .ok ("u2", "x@y@z@w") ∧
    SshPkg.Split (some "u2") "x@y@z@w" = .ok ("u2", "x@y@z@w") := by
  have t := multi_at_treated_as_bare_host (some "u2") "x@y@z@w" (by decide)
  exact ⟨t.1, t.2⟩

/-- C5 counterexample: On a bare host the parsers do *not* default
the port: the input comes back as the host unchanged, without `":22"`
(port defaulting happens later, in `formatHost` inside
`Configure`/`Dial`). -/
theorem bare_host_port_not_defaulted :
    Sshx.Split (some "u") "host" = .ok ("u", "host") ∧
    SshPkg.Split (some "u") "host" = .ok ("u", "host") ∧
    ("host" : String) ≠ "host:22" :=
  ⟨rfl, rfl, by decide⟩

/-- C5 amended: For `user@host` inputs both parsers append `":22"`
exactly when the host part has no colon, and leave an explicit port
untouched (`"user@host:1234"` parses to `("user", "host:1234")`); for
inputs that do not split into exactly two parts at `'@'` (bare hosts in
particular) the user defaults to the ambient identity but the input is
returned as the host verbatim, with no port appended by the parser. -/
theorem split_port_and_user_defaults (current : Sshx.CurrentUser)
    (cu s user host : String) :
    (Sshx.goSplit '@' s = [user, host] → Sshx.goContainsChar ':' host = false →
      Sshx.Split current s = .ok (user, host ++ ":22") ∧
      SshPkg.Split current s = .ok (user, host ++ ":22")) ∧
    (Sshx.goSplit '@' s = [user, host] → Sshx.goContainsChar ':' host = true →
      Sshx.Split current s = .ok (user, host) ∧
      SshPkg.Split current s = .ok (user, host)) ∧
    ((Sshx.goSplit '@' s).length ≠ 2 →
      Sshx.Split (some cu) s = .ok (cu, s) ∧
      SshPkg.Split (some cu) s = .ok (cu, s)) ∧
    Sshx.Split (some cu) "user@host:1234" = .ok ("user", "host:1234") ∧
    SshPkg.Split (some cu) "user@host:1234" = .ok ("user", "host:1234") := by
  refine ⟨?_, ?_, ?_, rfl, rfl⟩
  · intro h2 hnc
    have h1 : (Sshx.goSplit ':' host).length = 1 :=
      (goSplit_single_iff ':' host).mpr hnc
    constructor
    · simp [Sshx.Split, h2, Sshx.formatHost, Sshx.joinHostPort, hnc,
        String.append_assoc]
    · simp [SshPkg.Split, h2, h1]
  · intro h2 hc
    have h1 : (Sshx.goSplit ':' host).length ≠ 1 := by
      rw [Ne, goSplit_single_iff, hc]
      simp
    constructor
    · simp [Sshx.Split, h2, Sshx.formatHost, hc]
    · simp [SshPkg.Split, h2, h1]
  · intro hlen
    exact split_fallback_branch (some cu) s hlen

/-- Witness for C5 at concrete inputs: port defaulted for
`alice@server`, explicit port preserved, bare host untouched. -/
theorem split_port_and_user_defaults_witness :
    Sshx.Split (some "me") "alice@server" = .ok ("alice", "server:22") ∧
    SshPkg.Split (some "me") "alice@server" = .ok ("alice", "server:22") ∧
    Sshx.Split (some "me") "alice@server:2222" = .ok ("alice", "server:2222") ∧
    Sshx.Split (some "me") "bare" = .ok ("me", "bare") := by
  have t := split_port_and_user_defaults (some "me") "me" "alice@server" "alice" "server"
  have t2 := split_port_and_user_defaults (some "me") "me" "alice@server:2222"
    "alice" "server:2222"
  have t3 := split_port_and_user_defaults (some "me") "me" "bare" "" ""
  exact ⟨(t.1 (by decide) rfl).1, (t.1 (by decide) rfl).2,
    (t2.2.1 (by decide) rfl).1, (t3.2.2.1 (by decide)).1⟩

/-- C3: Exploratory authentication: the candidate list is the
caller-supplied signers followed by the agent's (an unreachable agent
contributes nothing); a success is the first candidate that dials, every
earlier candidate having failed, and the attempts performed are exactly
the failing prefix followed by that success — nothing after it; when all
candidates fail both functions report the aggregate connection error;
and `Test` returns exactly the signer `DialEach` finds. -/
theorem exploratory_auth_first_success (dialOk : Sshx.DialOk)
    (agent : Sshx.AgentLoad) (user host : String)
    (signers agentSigners : List Sshx.Signer) :
    Sshx.expandSigners (some (.ok agentSigners)) signers =
      .ok (signers ++ agentSigners) ∧
    Sshx.expandSigners none signers = .ok signers ∧
    (∀ cands s, Sshx.expandSigners agent signers = .ok cands →
      Sshx.DialEach dialOk agent user host signers = .ok s →
      ∃ pre post, cands = pre ++ s :: post ∧ (∀ x ∈ pre, dialOk x = false) ∧
        dialOk s = true ∧ Sshx.attemptTrace dialOk cands = pre ++ [s]) ∧
    (∀ cands, Sshx.expandSigners agent signers = .ok cands →
      (∀ x ∈ cands, dialOk x = false) →
      Sshx.DialEach dialOk agent user host signers =
        .error ("ssh: unable to connect to " ++ user ++ "@" ++ Sshx.formatHost host)) ∧
    Sshx.Test dialOk agent user host signers =
      Sshx.DialEach dialOk agent user host signers := by
  refine ⟨rfl, rfl, ?_, ?_, rfl⟩
  · intro cands s hexp hd
    simp only [Sshx.DialEach, hexp] at hd
    cases hl : Sshx.dialLoop dialOk cands with
    | none => rw [hl] at hd; simp at hd
    | some s2 =>
      rw [hl] at hd
      simp only [Except.ok.injEq] at hd
      subst hd
      exact Sshx.dialLoop_spec dialOk cands s2 hl
  · intro cands hexp hall
    have hn := Sshx.dialLoop_eq_none dialOk cands hall
    simp [Sshx.DialEach, hexp, hn]

/-- Witness for C3: the spec's own scenario — candidates `[A, B, C]`
with only `B` valid — attempts exactly `A` then `B` and returns `B`. -/
theorem exploratory_auth_first_success_witness :
    Sshx.DialEach (· == "B") (some (.ok [])) "u" "host" ["A", "B", "C"] =
      .ok "B" ∧
    ∃ pre post, (["A", "B", "C"] : List Sshx.Signer) = pre ++ "B" :: post ∧
      (∀ x ∈ pre, (x == "B") = false) ∧ ("B" == "B") = true ∧
      Sshx.attemptTrace (· == "B") ["A", "B", "C"] = pre ++ ["B"] := by
  have t := exploratory_auth_first_success (· == "B") (some (.ok []))
    "u" "host" ["A", "B", "C"] []
  exact ⟨rfl, t.2.2.1 ["A", "B", "C"] "B" rfl rfl⟩

/-- C6: In an interactive shell run (no one-shot arguments, all
terminal steps succeeding), a remote exit status of 130 yields a normal
`none` return; any other non-zero exit status `n` yields the descriptive
`exitStatus n` error; and any other session failure yields the distinct
`sessionEndedUnexpectedly` error. -/
theorem shell_exit_status_translation (env : Sshx.ShellEnv) (dir : String)
    (w h : Nat)
    (hdir : Sshx.validPath dir = true)
    (hs : env.newSession = .ok ())
    (hraw : env.makeRaw = .ok ())
    (hsize : env.getSize = .ok (w, h))
    (hpty : ∀ t th tw, env.requestPty t th tw = .ok ()) :
    (env.run (Sshx.formatCommand dir []) = .exitError 130 →
      (Sshx.Shell env dir []).2 = none) ∧
    (∀ n, n ≠ 130 → env.run (Sshx.formatCommand dir []) = .exitError n →
      (Sshx.Shell env dir []).2 = some (.exitStatus n)) ∧
    (∀ e, env.run (Sshx.formatCommand dir []) = .otherError e →
      (Sshx.Shell env dir []).2 = some (.sessionEndedUnexpectedly e)) := by
  have hshell : (Sshx.Shell env dir []).2 =
      Sshx.interactiveRunError (env.run (Sshx.formatCommand dir [])) := by
    simp [Sshx.Shell, hdir, hs, hraw, hsize, hpty]
  refine ⟨?_, ?_, ?_⟩
  · intro hr
    rw [hshell, hr]
    rfl
  · intro n hn hr
    rw [hshell, hr]
    simp [Sshx.interactiveRunError, hn]
  · intro e hr
    rw [hshell, hr]
    rfl

/-- Witness for C6: statuses 130 and 1 and a connection drop, on an
all-succeeding environment. -/
theorem shell_exit_status_translation_witness :
    (Sshx.Shell (Sshx.constEnv (.exitError 130)) "." []).2 = none ∧
    (Sshx.Shell (Sshx.constEnv (.exitError 1)) "." []).2 =
      some (.exitStatus 1) ∧
    (Sshx.Shell (Sshx.constEnv (.otherError "drop")) "." []).2 =
      some (.sessionEndedUnexpectedly "drop") := by
  have t130 := shell_exit_status_translation (Sshx.constEnv (.exitError 130))
    "." 80 24 rfl rfl rfl rfl (fun _ _ _ => rfl)
  have t1 := shell_exit_status_translation (Sshx.constEnv (.exitError 1))
    "." 80 24 rfl rfl rfl rfl (fun _ _ _ => rfl)
  have tdrop := shell_exit_status_translation (Sshx.constEnv (.otherError "drop"))
    "." 80 24 rfl rfl rfl rfl (fun _ _ _ => rfl)
  exact ⟨t130.1 rfl, t1.2.1 1 (by decide) rfl, tdrop.2.2 "drop" rfl⟩

/-- C7: With a non-empty one-shot argument list, `Shell` never
requests a pty and never puts the local terminal into raw mode on any
path; when the directory is valid and the session opens, it runs
exactly `cd <dir> && exec $SHELL -c "<joined args>"` and returns that
run's result untranslated.  With an empty argument list and all
terminal steps succeeding, it requests a pty and runs
`cd <dir> && exec $SHELL`. -/
theorem one_shot_skips_pty (env : Sshx.ShellEnv) (dir : String)
    (args : List String) :
    (args ≠ [] → ∀ t hh ww,
      Sshx.ShellEvent.ptyRequested t hh ww ∉ (Sshx.Shell env dir args).1 ∧
      Sshx.ShellEvent.madeRaw ∉ (Sshx.Shell env dir args).1) ∧
    (args ≠ [] → Sshx.validPath dir = true → env.newSession = .ok () →
      Sshx.Shell env dir args =
        ([.sessionOpened, .ran ("cd " ++ dir ++ " && exec $SHELL -c " ++
            Sshx.goQuote (String.intercalate " " args))],
         Sshx.rawRunError (env.run (Sshx.formatCommand dir args)))) ∧
    (Sshx.validPath dir = true → env.newSession = .ok () →
      env.makeRaw = .ok () → ∀ w h, env.getSize = .ok (w, h) →
      (∀ t th tw, env.requestPty t th tw = .ok ()) →
      ∃ t, Sshx.ShellEvent.ptyRequested t h w ∈ (Sshx.Shell env dir []).1 ∧
        Sshx.ShellEvent.ran ("cd " ++ dir ++ " && exec $SHELL") ∈
          (Sshx.Shell env dir []).1) := by
  refine ⟨?_, ?_, ?_⟩
  · intro ha t hh ww
    have hlen : 0 < args.length := List.length_pos.mpr ha
    by_cases hv : Sshx.validPath dir
    · cases hs : env.newSession with
      | error e => constructor <;> simp [Sshx.Shell, hv, hs]
      | ok u => constructor <;> simp [Sshx.Shell, hv, hs, hlen]
    · constructor <;> simp [Sshx.Shell, hv]
  · intro ha hv hs
    have hlen : 0 < args.length := List.length_pos.mpr ha
    have hne : args.length ≠ 0 := Nat.pos_iff_ne_zero.mp hlen
    have hfc : Sshx.formatCommand dir args =
        "cd " ++ dir ++ " && exec $SHELL -c " ++
          Sshx.goQuote (String.intercalate " " args) := by
      simp [Sshx.formatCommand, hne]
    simp [Sshx.Shell, hv, hs, hlen, hfc]
  · intro hv hs hraw w h hsize hpty
    refine ⟨if env.termEnv == "" then "xterm-256color" else env.termEnv, ?_, ?_⟩ <;>
      simp [Sshx.Shell, hv, hs, hraw, hsize, hpty, Sshx.formatCommand]

/-- Witness for C7: a concrete one-shot run performs no pty request and
runs the joined quoted command; the same environment with no arguments
does request a pty. -/
theorem one_shot_skips_pty_witness :
    (∀ t hh ww, Sshx.ShellEvent.ptyRequested t hh ww ∉
      (Sshx.Shell (Sshx.constEnv .success) "proj" ["ls", "-al"]).1) ∧
    Sshx.Shell (Sshx.constEnv .success) "proj" ["ls", "-al"] =
      ([.sessionOpened, .ran "cd proj && exec $SHELL -c \"ls -al\""], none) ∧
    (∃ t, Sshx.ShellEvent.ptyRequested t 24 80 ∈
      (Sshx.Shell (Sshx.constEnv .success) "proj" []).1) := by
  have t := one_shot_skips_pty (Sshx.constEnv .success) "proj" ["ls", "-al"]
  have t0 := one_shot_skips_pty (Sshx.constEnv .success) "proj" []
  refine ⟨fun ty hh ww => (t.1 (by decide) ty hh ww).1, ?_, ?_⟩
  · have h2 := t.2.1 (by decide) (by decide) rfl
    rw [h2]
    rfl
  · obtain ⟨ty, hmem, _⟩ := t0.2.2 (by decide) rfl rfl 80 24 rfl (fun _ _ _ => rfl)
    exact ⟨ty, hmem⟩

/-- C8 counterexample: A well-formed absolute path is rejected by
`Shell`: `fs.ValidPath` accepts only unrooted slash-separated paths, so
`"/tmp"` fails with the invalid-directory error (no session opened). -/
theorem absolute_dir_rejected :
    Sshx.Shell (Sshx.constEnv .success) "/tmp" [] =
      ([], some (.invalidDirectory "/tmp")) ∧
    Sshx.Shell (Sshx.constEnv .success) "/tmp" ["ls"] =
      ([], some (.invalidDirectory "/tmp")) :=
  ⟨rfl, rfl⟩

/-- C8 amended: `Shell` fails with the invalid-directory error
exactly when `fs.ValidPath` rejects the directory — and then it performs
no action at all, in particular it opens no session; `fs.ValidPath`
accepts exactly `"."` and the unrooted slash-separated paths whose
elements are all non-empty and none of which is `"."` or `".."`
(absolute paths are rejected). -/
theorem shell_dir_validation (env : Sshx.ShellEnv) (dir : String)
    (args : List String) :
    ((Sshx.Shell env dir args).2 = some (.invalidDirectory dir) ↔
      Sshx.validPath dir = false) ∧
    (Sshx.validPath dir = false →
      Sshx.Shell env dir args = ([], some (.invalidDirectory dir))) ∧
    (Sshx.validPath dir = true ↔
      (dir = "." ∨ ∀ e ∈ Sshx.goSplit '/' dir, e ≠ "" ∧ e ≠ "." ∧ e ≠ "..")) := by
  have hreject : Sshx.validPath dir = false →
      Sshx.Shell env dir args = ([], some (.invalidDirectory dir)) := by
    intro hvf
    simp [Sshx.Shell, hvf]
  refine ⟨?_, hreject, ?_⟩
  · constructor
    · intro hS
      cases hb : Sshx.validPath dir with
      | false => rfl
      | true =>
        exfalso
        cases hses : env.newSession with
        | error e =>
          have hsh : Sshx.Shell env dir args = ([], some (.sessionCreation e)) := by
            simp [Sshx.Shell, hb, hses]
          rw [hsh] at hS
          simp at hS
        | ok u =>
          by_cases hlen : 0 < args.length
          · have hsh : (Sshx.Shell env dir args).2 =
                Sshx.rawRunError (env.run (Sshx.formatCommand dir args)) := by
              simp [Sshx.Shell, hb, hses, hlen]
            rw [hsh] at hS
            cases hrun : env.run (Sshx.formatCommand dir args) <;>
              rw [hrun] at hS <;> simp [Sshx.rawRunError] at hS
          · have hargs : args = [] := by
              cases args with
              | nil => rfl
              | cons a as => simp at hlen
            subst hargs
            cases hraw : env.makeRaw with
            | error e =>
              have hsh : Sshx.Shell env dir [] =
                  ([.sessionOpened], some (.makeRawFailed e)) := by
                simp [Sshx.Shell, hb, hses, hraw]
              rw [hsh] at hS
              simp at hS
            | ok u2 =>
              cases hsize : env.getSize with
              | error e =>
                have hsh : Sshx.Shell env dir [] =
                    ([.sessionOpened, .madeRaw, .restoredRaw],
                     some (.getSizeFailed e)) := by
                  simp [Sshx.Shell, hb, hses, hraw, hsize]
                rw [hsh] at hS
                simp at hS
              | ok wh =>
                obtain ⟨w, h⟩ := wh
                cases hpty : env.requestPty
                    (if env.termEnv == "" then "xterm-256color" else env.termEnv)
                    h w with
                | error e =>
                  simp only [beq_iff_eq] at hpty
                  have hsh : Sshx.Shell env dir [] =
                      ([.sessionOpened, .madeRaw, .restoredRaw],
                       some (.ptyFailed e)) := by
                    simp [Sshx.Shell, hb, hses, hraw, hsize, hpty]
                  rw [hsh] at hS
                  simp at hS
                | ok u3 =>
                  simp only [beq_iff_eq] at hpty
                  have hsh : (Sshx.Shell env dir []).2 =
                      Sshx.interactiveRunError
                        (env.run (Sshx.formatCommand dir [])) := by
                    simp [Sshx.Shell, hb, hses, hraw, hsize, hpty]
                  rw [hsh] at hS
                  cases hrun : env.run (Sshx.formatCommand dir []) with
                  | success =>
                    rw [hrun] at hS
                    simp [Sshx.interactiveRunError] at hS
                  | exitError n =>
                    rw [hrun] at hS
                    by_cases h130 : n == 130 <;>
                      simp [Sshx.interactiveRunError, h130] at hS
                  | otherError e =>
                    rw [hrun] at hS
                    simp [Sshx.interactiveRunError] at hS
    · intro hvf
      exact congrArg Prod.snd (hreject hvf)
  · by_cases hd : dir = "."
    · simp [Sshx.validPath, hd]
    · simp [Sshx.validPath, hd, List.all_eq_true, not_or, and_assoc]

/-- Witness for C8: a traversal path is rejected before any session, a
plain relative path is not rejected. -/
theorem shell_dir_validation_witness :
    Sshx.Shell (Sshx.constEnv .success) "a/../b" [] =
      ([], some (.invalidDirectory "a/../b")) ∧
    (Sshx.Shell (Sshx.constEnv .success) "a/b" []).2 ≠
      some (.invalidDirectory "a/b") := by
  have t := shell_dir_validation (Sshx.constEnv .success) "a/../b" []
  have t2 := shell_dir_validation (Sshx.constEnv .success) "a/b" []
  refine ⟨t.2.1 (by decide), fun h => ?_⟩
  exact absurd (t2.1.mp h) (by decide)

/-- C9 counterexample: `Run` in `ssh.go` uses `strings.TrimSpace`:
on captured stdout `" x"` it returns `"x"`, modifying the output beyond
stripping trailing newlines (which would leave `" x"` unchanged). -/
theorem trimspace_output_modified :
    SshPkg.Run (.ok ⟨" x", .success⟩) = ("x", none) ∧
    Sshx.goTrimRight (· == '\n') " x" = " x" ∧
    ("x" : String) ≠ " x" :=
  ⟨rfl, rfl, by decide⟩

/-- C9 amended: `Run` in `sshx.go` returns captured stdout with
exactly the trailing run of newline characters removed and otherwise
unmodified (the output plus some number of newlines reconstructs the
capture, and the output never ends in a newline); `Run` in `ssh.go`
instead strips leading and trailing whitespace; both return `"x"` for
the `echo 'x'` capture `"x\n"`. -/
theorem run_output_trimming (stdout : String) :
    Sshx.Run (.ok ⟨stdout, .success⟩) =
      (Sshx.goTrimRight (· == '\n') stdout, none) ∧
    (∃ k, stdout.data =
      (Sshx.goTrimRight (· == '\n') stdout).data ++ List.replicate k '\n') ∧
    (∀ c, (Sshx.goTrimRight (· == '\n') stdout).data.getLast? = some c →
      c ≠ '\n') ∧
    SshPkg.Run (.ok ⟨stdout, .success⟩) = (Sshx.goTrimSpace stdout, none) ∧
    Sshx.Run (.ok ⟨"x\n", .success⟩) = ("x", none) ∧
    SshPkg.Run (.ok ⟨"x\n", .success⟩) = ("x", none) := by
  refine ⟨rfl, ?_, ?_, rfl, rfl, rfl⟩
  · refine ⟨(stdout.data.reverse.takeWhile (· == '\n')).length, ?_⟩
    have hsplit := List.takeWhile_append_dropWhile (fun c => c == '\n')
      stdout.data.reverse
    have hrep := Sshx.takeWhile_beq_replicate '\n' stdout.data.reverse
    calc stdout.data = stdout.data.reverse.reverse := (List.reverse_reverse _).symm
      _ = (stdout.data.reverse.takeWhile (· == '\n') ++
            stdout.data.reverse.dropWhile (· == '\n')).reverse := by rw [hsplit]
      _ = (stdout.data.reverse.dropWhile (· == '\n')).reverse ++
            (stdout.data.reverse.takeWhile (· == '\n')).reverse :=
        List.reverse_append _ _
      _ = (Sshx.goTrimRight (· == '\n') stdout).data ++
            List.replicate (stdout.data.reverse.takeWhile (· == '\n')).length '\n' := by
        rw [hrep]
        simp [Sshx.goTrimRight, List.reverse_replicate]
  · intro c hc
    have hhead : (stdout.data.reverse.dropWhile (· == '\n')).head? = some c := by
      have hdata : (Sshx.goTrimRight (· == '\n') stdout).data =
          (stdout.data.reverse.dropWhile (· == '\n')).reverse := rfl
      rw [hdata, List.getLast?_reverse] at hc
      exact hc
    have hf := Sshx.dropWhile_head_false (fun c => c == '\n') _ c hhead
    simpa using hf

/-- Witness for C9 at the `echo 'x'` capture. -/
theorem run_output_trimming_witness :
    Sshx.Run (.ok ⟨"x\n", .success⟩) = ("x", none) ∧
    (∃ k, ("x\n" : String).data =
      (Sshx.goTrimRight (· == '\n') "x\n").data ++ List.replicate k '\n') := by
  have t := run_output_trimming "x\n"
  exact ⟨t.2.2.2.2.1, t.2.1⟩

/-- C10: Both `Run`s return the empty string as the output whenever
they return an error (session-creation failure or a failed remote run):
partially captured stdout is discarded, so a non-empty output implies
success. -/
theorem run_empty_output_on_error (ns : Sshx.NewSession) :
    ((Sshx.Run ns).2.isSome → (Sshx.Run ns).1 = "") ∧
    ((SshPkg.Run ns).2.isSome → (SshPkg.Run ns).1 = "") ∧
    ((Sshx.Run ns).1 ≠ "" → (Sshx.Run ns).2 = none) ∧
    ((SshPkg.Run ns).1 ≠ "" → (SshPkg.Run ns).2 = none) := by
  cases ns with
  | error e => simp [Sshx.Run, SshPkg.Run]
  | ok session =>
    obtain ⟨stdout, rr⟩ := session
    cases rr <;> simp [Sshx.Run, SshPkg.Run]

/-- Witness for C10 at session-creation failure and at a non-zero
remote exit. -/
theorem run_empty_output_on_error_witness :
    (Sshx.Run (.error "boom")).1 = "" ∧
    (SshPkg.Run (.error "boom")).1 = "" ∧
    (Sshx.Run (.ok ⟨"late out", .exitError 1⟩)).1 = "" := by
  have t1 := run_empty_output_on_error (.error "boom")
  have t2 := run_empty_output_on_error (.ok ⟨"late out", .exitError 1⟩)
  exact ⟨t1.1 rfl, t1.2.1 rfl, t2.1 rfl⟩
